import Mathlib

/-!
Verification development for the venue-reservation backend.

The definitions below are a shallow embedding of the JavaScript source
(src/index.js, src/migrate.js).  JavaScript strings are modelled as Lean
`String` (code-point lists; the identifiers involved are ASCII, where
MongoDB byte order and code-point order agree), JavaScript numbers arising
from parseInt are modelled as `Option Int` (`none` = NaN) and those arising
from parseFloat as `Option ℚ` (`none` = NaN; floating-point rounding and
exponent notation play no role in the claims and are idealised away), and
JavaScript Date values are modelled opaquely by the string they were
constructed from (`none` = Invalid Date).
-/

/-- Character test used throughout: ASCII decimal digit (codepoints 48-57). -/
def isDigitC (c : Char) : Bool := 48 ≤ c.toNat && c.toNat ≤ 57

/-- Whitespace test for the leading-whitespace skip of JS parseInt/parseFloat. -/
def isWsC (c : Char) : Bool := c.toNat = 32 || c.toNat = 9 || c.toNat = 10 || c.toNat = 13

/-- Numeric value of a most-significant-first list of digit characters. -/
def digitsVal : List Char → Nat
  | [] => 0
  | c :: cs => (c.toNat - 48) * 10 ^ cs.length + digitsVal cs

/-- Decimal digit character for a value 0-9 (values above 9 never occur). -/
def digitChar (d : Nat) : Char :=
  match d with
  | 0 => '0'
  | 1 => '1'
  | 2 => '2'
  | 3 => '3'
  | 4 => '4'
  | 5 => '5'
  | 6 => '6'
  | 7 => '7'
  | 8 => '8'
  | _ => '9'

/-- Decimal digit list of a natural number, most significant digit first.
The first argument is recursion fuel; it is always called with enough fuel. -/
def natDigitsAux : Nat → Nat → List Char
  | 0, _ => []
  | fuel + 1, n => if n < 10 then [digitChar n] else natDigitsAux fuel (n / 10) ++ [digitChar (n % 10)]

/-- Model of the JS number-to-string conversion for a nonnegative integer. -/
def natToString (n : Nat) : String := String.mk (natDigitsAux (n + 1) n)

/-- Model of the JS number-to-string conversion for an integer. -/
def intToString (i : Int) : String :=
  if i < 0 then String.mk (Char.ofNat 45 :: (natToString i.natAbs).data) else natToString i.toNat

/-- Model of JS String(x) for an integer-valued number that may be NaN. -/
def numToStr : Option Int → String
  | none => "NaN"
  | some i => intToString i

/-- Model of JS String.prototype.padStart with a pad character. -/
def padStartStr (s : String) (w : Nat) (c : Char) : String :=
  String.mk (List.replicate (w - s.length) c ++ s.data)

/-- The zero pad character used by the allocator. -/
def zeroChar : Char := '0'

/-- Model of JS String.prototype.startsWith / the anchored Mongo prefix regex. -/
def strIsPrefixOf (p s : String) : Bool := p.data.isPrefixOf s.data

/-- Lexicographic (code-point) order on character lists; this is the order
MongoDB uses when sorting the ASCII identifier strings of this system. -/
def lexLt : List Char → List Char → Bool
  | _, [] => false
  | [], _ :: _ => true
  | a :: as, b :: bs =>
    if a.toNat < b.toNat then true
    else if b.toNat < a.toNat then false
    else lexLt as bs

/-- Lexicographic order on strings (the Mongo sort order for the identifiers). -/
def strLt (s t : String) : Bool := lexLt s.data t.data

/-- Model of JS s.split(sep).pop() for sep = the dash character: the suffix of
the string after its last dash (the whole string when no dash occurs). -/
def afterLastDash (s : String) : String :=
  String.mk ((s.data.reverse.takeWhile (fun c => c.toNat != 45)).reverse)

/-- Leading run of digits, as a number; `none` when there is no leading digit. -/
def parseDigits (l : List Char) : Option Nat :=
  let ds := l.takeWhile isDigitC
  if ds.isEmpty then none else some (digitsVal ds)

/-- Model of JS parseInt on a string (no radix argument; decimal input).
Returns `none` for NaN. -/
def jsParseInt (s : String) : Option Int :=
  match s.data.dropWhile isWsC with
  | [] => none
  | c :: r =>
    if c.toNat = 45 then (parseDigits r).map (fun k => -(k : Int))
    else if c.toNat = 43 then (parseDigits r).map (fun k => (k : Int))
    else (parseDigits (c :: r)).map (fun k => (k : Int))

/-- Fractional part parser for jsParseFloat: digits after the decimal point. -/
def parseFracPart (l : List Char) : ℚ :=
  let ds := l.takeWhile isDigitC
  (digitsVal ds : ℚ) / 10 ^ ds.length

/-- Unsigned core of jsParseFloat: integer part, optional point, fraction. -/
def jsParseFloatCore (l : List Char) : Option ℚ :=
  let ip := l.takeWhile isDigitC
  match l.dropWhile isDigitC with
  | c :: fr =>
    if c.toNat = 46 then
      let fd := fr.takeWhile isDigitC
      if ip.isEmpty && fd.isEmpty then none
      else some ((digitsVal ip : ℚ) + parseFracPart fr)
    else if ip.isEmpty then none else some (digitsVal ip : ℚ)
  | [] => if ip.isEmpty then none else some (digitsVal ip : ℚ)

/-- Model of JS parseFloat on a string (exponent notation, which never occurs
in the fields of this system, is not modelled).  Returns `none` for NaN. -/
def jsParseFloat (s : String) : Option ℚ :=
  match s.data.dropWhile isWsC with
  | [] => none
  | c :: r =>
    if c.toNat = 45 then (jsParseFloatCore r).map (fun q => -q)
    else if c.toNat = 43 then jsParseFloatCore r
    else jsParseFloatCore (c :: r)

/-- Model of the JS idiom `x || 0` applied to a parseFloat result: NaN (and 0
itself) collapse to 0. -/
def jsOrZero : Option ℚ → ℚ
  | none => 0
  | some q => q

/-- Scope prefix for invoice numbers, from src/index.js lines 123-127:
year = getFullYear(), month = String(getMonth()+1).padStart(2,'0'),
prefix = INV/year/month-VE- . -/
def invoicePfx (y m : Nat) : String :=
  "INV/" ++ natToString y ++ "/" ++ padStartStr (natToString m) 2 zeroChar ++ "-VE-"

/-- Scope prefix for receipt (kwitansi) numbers, src/index.js line 146. -/
def kwitansiPfx (y m : Nat) : String :=
  "NOTA/" ++ natToString y ++ "/" ++ padStartStr (natToString m) 2 zeroChar ++ "-SDP-"

/-- One fold step of the history scan: keep the lexicographically larger
string, i.e. the element a descending Mongo sort with limit 1 would return. -/
def scanStep (acc : Option String) (s : String) : Option String :=
  match acc with
  | none => some s
  | some b => if strLt b s then some s else some b

/-- History Scanner for invoices, src/index.js lines 126-129: findOne over the
records whose nomorInvoice matches the anchored prefix regex, sorted by
nomorInvoice descending; the store is the list of existing nomorInvoice
values. -/
def scanMax (store : List String) (pfx : String) : Option String :=
  (store.filter (fun s => strIsPrefixOf pfx s)).foldl scanStep none

/-- Sequence Allocator for invoices, src/index.js lines 126-138: scan the
scope, parseInt the segment after the last dash of the found identifier and
add 1 (1 when nothing is found), pad to 4 with zeros, append to the prefix. -/
def allocateInvoice (store : List String) (y m : Nat) : String :=
  let pfx := invoicePfx y m
  let nextIdNumber : Option Int :=
    match scanMax store pfx with
    | none => some 1
    | some inv => (jsParseInt (afterLastDash inv)).map (fun k => k + 1)
  pfx ++ padStartStr (numToStr nextIdNumber) 4 zeroChar

/-- Sequence number carried by an allocated identifier (0 for NaN). -/
def seqNat (s : String) : Nat :=
  match jsParseInt (afterLastDash s) with
  | some n => n.toNat
  | none => 0

/-- Zero-padded 4-digit rendering of a sequence number, as the allocator
builds it. -/
def pad4 (n : Nat) : String := padStartStr (natToString n) 4 zeroChar

/-- Run of k successive (non-concurrent) allocations in one scope; each
allocated identifier is inserted into the store before the next request
scans, exactly as successive POST /api/reservations requests behave. -/
def runAlloc (store : List String) (y m : Nat) : Nat → List String
  | 0 => []
  | k + 1 =>
    let id := allocateInvoice store y m
    id :: runAlloc (store ++ [id]) y m k

/-- Maximum of a list of sequence numbers (0 when empty). -/
def maxVal (vals : List Nat) : Nat := vals.foldl max 0

/-- Phase of one in-flight POST /api/reservations request: it scans the store
and computes its identifier in one step, then writes it in a second step.
Suspension between the two store operations is where concurrent requests
interleave (spec section 5). -/
inductive Phase where
  | start : Phase
  | scanned : String → Phase
  | done : String → Phase
deriving DecidableEq

/-- One step of one request against the shared store. -/
def schedStep (y m : Nat) (st : List String) (ph : Phase) : List String × Phase :=
  match ph with
  | Phase.start => (st, Phase.scanned (allocateInvoice st y m))
  | Phase.scanned id => (st ++ [id], Phase.done id)
  | Phase.done id => (st, Phase.done id)

/-- Interleaved execution of several requests: the schedule names, in order,
the request that performs its next step. -/
def runSched (y m : Nat) : List Nat → List String → List Phase → List String × List Phase
  | [], st, phs => (st, phs)
  | i :: rest, st, phs =>
    let r := schedStep y m st (phs.getD i (Phase.done ""))
    runSched y m rest r.1 (phs.set i r.2)

/-- Maximum element of an array of strings under the Mongo sort order; a
descending Mongo sort compares array-valued fields by their maximum element. -/
def arrMaxOpt (l : List String) : Option String := l.foldl scanStep none

/-- Order on optional array maxima: a document with no matching array sorts
below one with an array. -/
def optStrLt : Option String → Option String → Bool
  | none, none => false
  | none, some _ => true
  | some _, none => false
  | some a, some b => strLt a b

/-- History Scanner for receipts, src/index.js lines 145-148: findOne over the
documents having some pembayaran.nomorKwitansi matching the anchored prefix
regex, sorted by pembayaran.nomorKwitansi descending (array fields compare by
maximum element); the store is the list of each reservation's list of
nomorKwitansi values.  Returns the pembayaran list of the found document. -/
def findLastKwitansiDoc (plists : List (List String)) (pfx : String) : Option (List String) :=
  (plists.filter (fun pl => pl.any (fun k => strIsPrefixOf pfx k))).foldl
    (fun acc pl =>
      match acc with
      | none => some pl
      | some b => if optStrLt (arrMaxOpt b) (arrMaxOpt pl) then some pl else some b)
    none

/-- Model of Math.max over parseInt results followed by +1: NaN poisons. -/
def jsMaxList : List (Option Int) → Option Int
  | [] => none
  | [x] => x
  | x :: y :: rest =>
    match x, jsMaxList (y :: rest) with
    | some a, some b => some (max a b)
    | _, _ => none

/-- Sequence Allocator for receipts, src/index.js lines 145-164: take the
found document's pembayaran, keep the nomorKwitansi values with the scope
prefix, parseInt each, Math.max them and add 1 (1 when nothing qualifies),
pad to 4 with zeros, append to the prefix. -/
def allocateKwitansi (plists : List (List String)) (y m : Nat) : String :=
  let pfx := kwitansiPfx y m
  let nextNum : Option Int :=
    match findLastKwitansiDoc plists pfx with
    | none => some 1
    | some pl =>
      if pl.length > 0 then
        let nums := (pl.filter (fun k => strIsPrefixOf pfx k)).map
          (fun k => jsParseInt (afterLastDash k))
        if nums.length > 0 then (jsMaxList nums).map (fun k => k + 1) else some 1
      else some 1
  pfx ++ padStartStr (numToStr nextNum) 4 zeroChar

/-- JSON-ish scalar values stored in reservation documents.  Nested objects
and arrays never flow through the field-coercion paths the claims concern. -/
inductive JVal where
  | vstr : String → JVal
  | vnum : Option ℚ → JVal
  | vdate : Option String → JVal
  | vbool : Bool → JVal
deriving DecidableEq

/-- Model of new Date(x): a string yields a date carrying that string, a
missing or non-string argument yields an invalid date. -/
def jsNewDateJ : Option JVal → JVal
  | some (JVal.vstr s) => JVal.vdate (some s)
  | _ => JVal.vdate none

/-- Model of parseInt applied to a request-body field; an absent field is
parseInt(undefined) = NaN.  Request bodies carry their numeric fields as
strings in this embedding. -/
def jsParseIntJ : Option JVal → Option Int
  | some (JVal.vstr s) => jsParseInt s
  | _ => none

/-- Model of parseFloat applied to a request-body field. -/
def jsParseFloatJ : Option JVal → Option ℚ
  | some (JVal.vstr s) => jsParseFloat s
  | _ => none

/-- A document or request body: a partial map from field names to values. -/
def Doc : Type := String → Option JVal

/-- Update payload of PUT /api/reservations/:id, src/index.js lines 207-215:
_id and nomorInvoice are destructured away; the two date fields and the
four numeric fields are overwritten by coerced values (assigned even when
the body does not supply them) and updatedAt is stamped; every other body
field passes through unchanged. -/
def putUpdateData (body : Doc) (now : JVal) : Doc := fun k =>
  if k = "_id" then none
  else if k = "nomorInvoice" then none
  else if k = "tanggalReservasi" then some (jsNewDateJ (body "tanggalReservasi"))
  else if k = "tanggalEvent" then some (jsNewDateJ (body "tanggalEvent"))
  else if k = "pax" then some (JVal.vnum ((jsParseIntJ (body "pax")).map (fun i => (i : ℚ))))
  else if k = "hargaPerPax" then some (JVal.vnum (jsParseFloatJ (body "hargaPerPax")))
  else if k = "subTotal" then some (JVal.vnum (jsParseFloatJ (body "subTotal")))
  else if k = "dp" then some (JVal.vnum (jsParseFloatJ (body "dp")))
  else if k = "updatedAt" then some now
  else body k

/-- Mongo updateOne with a $set of the given payload: fields in the payload
are written, all others keep their stored value. -/
def applySet (old upd : Doc) : Doc := fun k =>
  match upd k with
  | some v => some v
  | none => old k

/-- The stored document after PUT /api/reservations/:id on an existing
reservation, src/index.js lines 201-229. -/
def updateReservation (old : Doc) (body : Doc) (now : JVal) : Doc :=
  applySet old (putUpdateData body now)

/-- Field names the PUT handler assigns on every request. -/
def putAlwaysKeys : List String :=
  ["tanggalReservasi", "tanggalEvent", "pax", "hargaPerPax", "subTotal", "dp", "updatedAt"]

/-- One payment record as persisted inside a reservation document. -/
structure PaymentRec where
  nomorKwitansi : String
  jumlah : Option ℚ
deriving DecidableEq

/-- The request-body fields the POST /api/reservations handler coerces.  The
handler also spreads any further caller-supplied fields into the document;
those do not interact with the claims about allocation and coercion because
every claim-relevant field is assigned after the spread. -/
structure CreateBody where
  tanggalReservasi : String
  tanggalEvent : String
  pax : String
  hargaPerPax : String
  subTotal : String
  dp : String
deriving DecidableEq

/-- Claim-relevant fields of the reservation document built by
POST /api/reservations, src/index.js lines 140-191. -/
structure ReservationRec where
  nomorInvoice : String
  tanggalReservasi : JVal
  tanggalEvent : JVal
  pax : Option Int
  hargaPerPax : Option ℚ
  subTotal : Option ℚ
  dp : ℚ
  dibatalkan : Bool
  pembayaran : List PaymentRec
deriving DecidableEq

/-- POST /api/reservations, src/index.js lines 119-193: allocate the invoice
number from the invoice store, coerce the numeric fields (dp with the || 0
fallback, the others without), and when the down payment is positive allocate
a receipt number and auto-create the down-payment record. -/
def createReservation (invStore : List String) (payStore : List (List String)) (y m : Nat)
    (body : CreateBody) : ReservationRec :=
  let dpAmount := jsOrZero (jsParseFloat body.dp)
  { nomorInvoice := allocateInvoice invStore y m
    tanggalReservasi := jsNewDateJ (some (JVal.vstr body.tanggalReservasi))
    tanggalEvent := jsNewDateJ (some (JVal.vstr body.tanggalEvent))
    pax := jsParseInt body.pax
    hargaPerPax := jsParseFloat body.hargaPerPax
    subTotal := jsParseFloat body.subTotal
    dp := dpAmount
    dibatalkan := false
    pembayaran :=
      if 0 < dpAmount then
        [{ nomorKwitansi := allocateKwitansi payStore y m, jumlah := some dpAmount }]
      else [] }

/-- POST /api/reservations/:id/pembayaran, src/index.js lines 271-293: the
persisted payment's nomorKwitansi is the client-supplied value, verbatim. -/
def addPembayaran (r : ReservationRec) (clientNomorKwitansi : String) (jumlah : String) :
    ReservationRec :=
  { r with pembayaran :=
      r.pembayaran ++ [{ nomorKwitansi := clientNomorKwitansi, jumlah := jsParseFloat jumlah }] }

/-- A reservation document together with its embedded children (the layout
src/index.js reads and writes: addons and pembayaran are arrays inside the
document); children are identified by their record ids. -/
structure ResDoc where
  rid : Nat
  addons : List Nat
  pembayaran : List Nat
deriving DecidableEq

/-- The full store: the reservations collection plus the separate addons and
payments collections that src/migrate.js populates (rows are
(recordId, reservationId) pairs). -/
structure SepDB where
  reservations : List ResDoc
  addonsCol : List (Nat × Nat)
  paymentsCol : List (Nat × Nat)
deriving DecidableEq

/-- DELETE /api/reservations/:id, src/index.js lines 232-246: deleteOne on the
reservations collection only; 404 (failure) when no document matches. -/
def deleteReservation (db : SepDB) (id : Nat) : SepDB × Bool :=
  if db.reservations.any (fun r => r.rid == id) then
    ({ db with reservations := db.reservations.eraseP (fun r => r.rid == id) }, true)
  else (db, false)

/-- Embedded add-on records belonging to the given reservation that a direct
query can still reach. -/
def embeddedAddons (db : SepDB) (id : Nat) : List Nat :=
  ((db.reservations.filter (fun r => r.rid == id)).map ResDoc.addons).flatten

/-- Embedded payment records belonging to the given reservation that a direct
query can still reach. -/
def embeddedPayments (db : SepDB) (id : Nat) : List Nat :=
  ((db.reservations.filter (fun r => r.rid == id)).map ResDoc.pembayaran).flatten

/-- Rows of the separate addons collection that reference the reservation. -/
def orphanAddons (db : SepDB) (id : Nat) : List (Nat × Nat) :=
  db.addonsCol.filter (fun a => a.2 == id)

/-- Rows of the separate payments collection that reference the reservation. -/
def orphanPayments (db : SepDB) (id : Nat) : List (Nat × Nat) :=
  db.paymentsCol.filter (fun a => a.2 == id)

/-- The dash character, codepoint 45. -/
def dashChar : Char := '-'

lemma isDigitC_digitChar (d : Nat) : isDigitC (digitChar d) = true := by
  unfold digitChar
  split <;> decide

lemma digitChar_toNat (d : Nat) (h : d ≤ 9) : (digitChar d).toNat = 48 + d := by
  interval_cases d <;> decide

lemma isDigitC_toNat {c : Char} (h : isDigitC c = true) : 48 ≤ c.toNat ∧ c.toNat ≤ 57 := by
  simp only [isDigitC, Bool.and_eq_true, decide_eq_true_eq] at h
  exact h

lemma digitsVal_concat (l : List Char) (c : Char) :
    digitsVal (l ++ [c]) = 10 * digitsVal l + (c.toNat - 48) := by
  induction l with
  | nil => simp [digitsVal]
  | cons d t ih =>
    rw [List.cons_append]
    show (d.toNat - 48) * 10 ^ (t ++ [c]).length + digitsVal (t ++ [c]) = _
    rw [ih, List.length_append, List.length_singleton]
    show _ = 10 * ((d.toNat - 48) * 10 ^ t.length + digitsVal t) + (c.toNat - 48)
    ring

lemma digitsVal_lt (l : List Char) (h : ∀ c ∈ l, isDigitC c = true) :
    digitsVal l < 10 ^ l.length := by
  induction l with
  | nil => simp [digitsVal]
  | cons c t ih =>
    have hc : c.toNat - 48 ≤ 9 := by
      have := isDigitC_toNat (h c (List.mem_cons_self c t))
      omega
    have ht : digitsVal t < 10 ^ t.length := ih (fun x hx => h x (List.mem_cons_of_mem c hx))
    have hmul : (c.toNat - 48) * 10 ^ t.length ≤ 9 * 10 ^ t.length :=
      Nat.mul_le_mul_right _ hc
    simp only [digitsVal, List.length_cons, pow_succ]
    omega

lemma natDigitsAux_digits : ∀ fuel n, ∀ c ∈ natDigitsAux fuel n, isDigitC c = true := by
  intro fuel
  induction fuel with
  | zero => intro n c hc; simp [natDigitsAux] at hc
  | succ f ih =>
    intro n c hc
    by_cases h : n < 10
    · simp only [natDigitsAux, if_pos h, List.mem_singleton] at hc
      exact hc ▸ isDigitC_digitChar n
    · simp only [natDigitsAux, if_neg h, List.mem_append, List.mem_singleton] at hc
      rcases hc with hc | hc
      · exact ih (n / 10) c hc
      · exact hc ▸ isDigitC_digitChar (n % 10)

lemma natDigitsAux_val : ∀ fuel n, n < 10 ^ fuel → digitsVal (natDigitsAux fuel n) = n := by
  intro fuel
  induction fuel with
  | zero =>
    intro n hn
    interval_cases n
    simp [natDigitsAux, digitsVal]
  | succ f ih =>
    intro n hn
    by_cases h : n < 10
    · have h9 : n ≤ 9 := by omega
      simp [natDigitsAux, if_pos h, digitsVal, digitChar_toNat n h9]
    · have hdiv : n / 10 < 10 ^ f := by
        rw [Nat.div_lt_iff_lt_mul (by norm_num)]
        calc n < 10 ^ (f + 1) := hn
        _ = 10 ^ f * 10 := by rw [pow_succ]
      have hm : n % 10 ≤ 9 := by omega
      simp only [natDigitsAux, if_neg h, digitsVal_concat, ih (n / 10) hdiv,
        digitChar_toNat (n % 10) hm]
      omega

lemma natDigitsAux_len : ∀ fuel n k, 1 ≤ k → n < 10 ^ k → (natDigitsAux fuel n).length ≤ k := by
  intro fuel
  induction fuel with
  | zero => intro n k _ _; simp [natDigitsAux]
  | succ f ih =>
    intro n k hk hn
    by_cases h : n < 10
    · simp only [natDigitsAux, if_pos h, List.length_singleton]
      omega
    · match k with
      | 1 => simp [pow_one] at hn; omega
      | k' + 2 =>
        have hdiv : n / 10 < 10 ^ (k' + 1) := by
          rw [Nat.div_lt_iff_lt_mul (by norm_num)]
          calc n < 10 ^ (k' + 2) := hn
          _ = 10 ^ (k' + 1) * 10 := by rw [pow_succ]
        have := ih (n / 10) (k' + 1) (by omega) hdiv
        simp only [natDigitsAux, if_neg h, List.length_append, List.length_singleton]
        omega

lemma lt_ten_pow_succ (n : Nat) : n < 10 ^ (n + 1) := by
  calc n < 2 ^ n := Nat.lt_two_pow n
  _ ≤ 10 ^ n := Nat.pow_le_pow_left (by norm_num) n
  _ ≤ 10 ^ (n + 1) := Nat.pow_le_pow_right (by norm_num) (Nat.le_succ n)

lemma natToString_digits (n : Nat) : ∀ c ∈ (natToString n).data, isDigitC c = true := by
  intro c hc
  exact natDigitsAux_digits (n + 1) n c hc

lemma natToString_val (n : Nat) : digitsVal (natToString n).data = n :=
  natDigitsAux_val (n + 1) n (lt_ten_pow_succ n)

lemma digitsVal_replicate_zero (k : Nat) (l : List Char) :
    digitsVal (List.replicate k zeroChar ++ l) = digitsVal l := by
  induction k with
  | zero => simp
  | succ j ih =>
    have hz : zeroChar.toNat - 48 = 0 := by decide
    simp only [List.replicate_succ, List.cons_append, digitsVal, hz, Nat.zero_mul, Nat.zero_add]
    exact ih

lemma pad4_data (n : Nat) :
    (pad4 n).data = List.replicate (4 - (natToString n).length) zeroChar ++ (natToString n).data :=
  rfl

lemma pad4_digits (n : Nat) : ∀ c ∈ (pad4 n).data, isDigitC c = true := by
  intro c hc
  rw [pad4_data] at hc
  rcases List.mem_append.mp hc with h | h
  · rw [List.eq_of_mem_replicate h]; decide
  · exact natToString_digits n c h

lemma pad4_val (n : Nat) : digitsVal (pad4 n).data = n := by
  rw [pad4_data, digitsVal_replicate_zero]
  exact natToString_val n

lemma natToString_length (n : Nat) (h : n ≤ 9999) : (natToString n).length ≤ 4 := by
  have : n < 10 ^ 4 := by norm_num; omega
  exact natDigitsAux_len (n + 1) n 4 (by norm_num) this

lemma natToString_length_pos (n : Nat) : 1 ≤ (natToString n).length := by
  show 1 ≤ (natDigitsAux (n + 1) n).length
  by_cases h : n < 10
  · simp [natDigitsAux, if_pos h]
  · simp [natDigitsAux, if_neg h]

lemma pad4_length (n : Nat) (h : n ≤ 9999) : (pad4 n).data.length = 4 := by
  rw [pad4_data]
  have h4 := natToString_length n h
  have : (natToString n).data.length = (natToString n).length := rfl
  simp only [List.length_append, List.length_replicate, this]
  omega

lemma lexLt_append_left (p a b : List Char) : lexLt (p ++ a) (p ++ b) = lexLt a b := by
  induction p with
  | nil => rfl
  | cons c t ih =>
    simp only [List.cons_append, lexLt, Nat.lt_irrefl, if_false]
    exact ih

lemma digitsVal_head_lt {a b : Char} {as bs : List Char} (hlen : as.length = bs.length)
    (ha : isDigitC a = true) (hda : ∀ c ∈ as, isDigitC c = true)
    (hb : isDigitC b = true) (hab : a.toNat < b.toNat) :
    digitsVal (a :: as) < digitsVal (b :: bs) := by
  have h1 := isDigitC_toNat ha
  have h2 := isDigitC_toNat hb
  have hva : digitsVal as < 10 ^ as.length := digitsVal_lt as hda
  have hstep : (a.toNat - 48) + 1 ≤ b.toNat - 48 := by omega
  simp only [digitsVal, hlen]
  calc (a.toNat - 48) * 10 ^ bs.length + digitsVal as
      < (a.toNat - 48) * 10 ^ bs.length + 10 ^ bs.length := by
        have := hlen ▸ hva
        omega
  _ = ((a.toNat - 48) + 1) * 10 ^ bs.length := by ring
  _ ≤ (b.toNat - 48) * 10 ^ bs.length := Nat.mul_le_mul_right _ hstep
  _ ≤ (b.toNat - 48) * 10 ^ bs.length + digitsVal bs := Nat.le_add_right _ _

lemma lexLt_digits : ∀ (as bs : List Char), as.length = bs.length →
    (∀ c ∈ as, isDigitC c = true) → (∀ c ∈ bs, isDigitC c = true) →
    (lexLt as bs = true ↔ digitsVal as < digitsVal bs) := by
  intro as
  induction as with
  | nil =>
    intro bs hlen _ _
    have : bs = [] := List.eq_nil_of_length_eq_zero hlen.symm
    subst this
    simp [lexLt, digitsVal]
  | cons a as ih =>
    intro bs hlen ha hb
    match bs with
    | [] => simp at hlen
    | b :: bs =>
      have hlen' : as.length = bs.length := by simpa using hlen
      have hda : ∀ c ∈ as, isDigitC c = true := fun c hc => ha c (List.mem_cons_of_mem a hc)
      have hdb : ∀ c ∈ bs, isDigitC c = true := fun c hc => hb c (List.mem_cons_of_mem b hc)
      have hha : isDigitC a = true := ha a (List.mem_cons_self a as)
      have hhb : isDigitC b = true := hb b (List.mem_cons_self b bs)
      by_cases h1 : a.toNat < b.toNat
      · simp only [lexLt, if_pos h1, true_iff]
        exact digitsVal_head_lt hlen' hha hda hhb h1
      · by_cases h2 : b.toNat < a.toNat
        · have hlt : digitsVal (b :: bs) < digitsVal (a :: as) :=
            digitsVal_head_lt hlen'.symm hhb hdb hha h2
          simp only [lexLt, if_neg h1, if_pos h2]
          constructor
          · intro h; exact absurd h (by simp)
          · intro h; exact absurd h (by omega)
        · have heq : a.toNat = b.toNat := by omega
          simp only [lexLt, if_neg h1, if_neg h2]
          rw [ih bs hlen' hda hdb]
          show digitsVal as < digitsVal bs ↔ digitsVal (a :: as) < digitsVal (b :: bs)
          simp only [digitsVal, hlen', heq]
          exact (add_lt_add_iff_left _).symm

lemma strLt_pad4 (p : String) (m n : Nat) (hm : m ≤ 9999) (hn : n ≤ 9999) :
    (strLt (p ++ pad4 m) (p ++ pad4 n) = true ↔ m < n) := by
  unfold strLt
  rw [String.data_append, String.data_append, lexLt_append_left]
  rw [lexLt_digits (pad4 m).data (pad4 n).data
    (by rw [pad4_length m hm, pad4_length n hn]) (pad4_digits m) (pad4_digits n)]
  rw [pad4_val, pad4_val]

lemma takeWhile_all {p : Char → Bool} : ∀ {l : List Char}, (∀ c ∈ l, p c = true) →
    l.takeWhile p = l := by
  intro l
  induction l with
  | nil => intro _; rfl
  | cons c t ih =>
    intro h
    rw [List.takeWhile_cons_of_pos (h c (List.mem_cons_self c t))]
    rw [ih (fun x hx => h x (List.mem_cons_of_mem c hx))]

lemma afterLastDash_concat (p : String) (ds : List Char)
    (hp : ∃ q, p.data = q ++ [dashChar]) (hds : ∀ c ∈ ds, isDigitC c = true) :
    afterLastDash (p ++ String.mk ds) = String.mk ds := by
  obtain ⟨q, hq⟩ := hp
  unfold afterLastDash
  rw [String.data_append, hq]
  have hmk : (String.mk ds).data = ds := rfl
  rw [hmk]
  have hrev : (q ++ [dashChar] ++ ds).reverse = ds.reverse ++ (dashChar :: q.reverse) := by
    simp
  rw [hrev]
  have hpos : ∀ c ∈ ds.reverse, (c.toNat != 45) = true := by
    intro c hc
    have := isDigitC_toNat (hds c (List.mem_reverse.mp hc))
    simp only [bne_iff_ne, ne_eq]
    omega
  rw [List.takeWhile_append_of_pos hpos]
  rw [List.takeWhile_cons_of_neg (by decide)]
  simp

lemma jsParseInt_digits (ds : List Char) (hne : ds ≠ [])
    (hds : ∀ c ∈ ds, isDigitC c = true) :
    jsParseInt (String.mk ds) = some ((digitsVal ds : Nat) : Int) := by
  match ds, hne with
  | c :: r, _ =>
    have hc := isDigitC_toNat (hds c (List.mem_cons_self c r))
    have hmk : (String.mk (c :: r)).data = c :: r := rfl
    unfold jsParseInt
    rw [hmk]
    rw [List.dropWhile_cons_of_neg
      (by simp only [isWsC, Bool.or_eq_true, decide_eq_true_eq]; omega)]
    show (if c.toNat = 45 then (parseDigits r).map (fun k => -(k : Int))
      else if c.toNat = 43 then (parseDigits r).map (fun k => (k : Int))
      else (parseDigits (c :: r)).map (fun k => (k : Int)))
      = some ((digitsVal (c :: r) : Nat) : Int)
    rw [if_neg (show ¬ c.toNat = 45 by omega), if_neg (show ¬ c.toNat = 43 by omega)]
    unfold parseDigits
    rw [takeWhile_all hds]
    rfl

lemma isPrefixOf_append_self : ∀ (l m : List Char), l.isPrefixOf (l ++ m) = true := by
  intro l m
  induction l with
  | nil => cases m <;> rfl
  | cons c t ih =>
    simp only [List.cons_append, List.isPrefixOf, beq_self_eq_true, Bool.true_and]
    exact ih

lemma strIsPrefixOf_append (p q : String) : strIsPrefixOf p (p ++ q) = true := by
  unfold strIsPrefixOf
  rw [String.data_append]
  exact isPrefixOf_append_self p.data q.data

lemma invoicePfx_ends_dash (y m : Nat) : ∃ q, (invoicePfx y m).data = q ++ [dashChar] := by
  unfold invoicePfx
  rw [String.data_append]
  exact ⟨("INV/" ++ natToString y ++ "/" ++ padStartStr (natToString m) 2 zeroChar).data
    ++ [dashChar, 'V', 'E'], by rw [List.append_assoc]; rfl⟩

lemma kwitansiPfx_ends_dash (y m : Nat) : ∃ q, (kwitansiPfx y m).data = q ++ [dashChar] := by
  unfold kwitansiPfx
  rw [String.data_append]
  exact ⟨("NOTA/" ++ natToString y ++ "/" ++ padStartStr (natToString m) 2 zeroChar).data
    ++ [dashChar, 'S', 'D', 'P'], by rw [List.append_assoc]; rfl⟩

lemma pad4_data_ne_nil (v : Nat) : (pad4 v).data ≠ [] := by
  have h1 := natToString_length_pos v
  have h2 : (pad4 v).data.length = (4 - (natToString v).length) + (natToString v).length := by
    rw [pad4_data]
    simp [List.length_append]
  have : 0 < (pad4 v).data.length := by omega
  exact List.ne_nil_of_length_pos this

lemma afterLastDash_pfx_pad4 (p : String) (hp : ∃ q, p.data = q ++ [dashChar]) (v : Nat) :
    afterLastDash (p ++ pad4 v) = pad4 v := by
  have h := afterLastDash_concat p (pad4 v).data hp (pad4_digits v)
  have heta : String.mk (pad4 v).data = pad4 v := rfl
  rw [heta] at h
  exact h

lemma jsParseInt_pad4 (v : Nat) : jsParseInt (pad4 v) = some ((v : Nat) : Int) := by
  have h := jsParseInt_digits (pad4 v).data (pad4_data_ne_nil v) (pad4_digits v)
  have heta : String.mk (pad4 v).data = pad4 v := rfl
  rw [heta, pad4_val] at h
  exact h

lemma seqNat_pfx_pad4 (p : String) (hp : ∃ q, p.data = q ++ [dashChar]) (v : Nat) :
    seqNat (p ++ pad4 v) = v := by
  unfold seqNat
  rw [afterLastDash_pfx_pad4 p hp v, jsParseInt_pad4]
  exact Int.toNat_natCast v

lemma natMax_eq_right {a b : Nat} (h : a ≤ b) : max a b = b := by omega

lemma natMax_eq_left {a b : Nat} (h : b ≤ a) : max a b = a := by omega

lemma natMax_le_of {a b c : Nat} (ha : a ≤ c) (hb : b ≤ c) : max a b ≤ c := by omega

lemma scanStep_pad4 (pfx : String) (a v : Nat) (ha : a ≤ 9999) (hv : v ≤ 9999) :
    scanStep (some (pfx ++ pad4 a)) (pfx ++ pad4 v) = some (pfx ++ pad4 (max a v)) := by
  show (if strLt (pfx ++ pad4 a) (pfx ++ pad4 v) = true then some (pfx ++ pad4 v)
    else some (pfx ++ pad4 a)) = some (pfx ++ pad4 (max a v))
  by_cases h : a < v
  · rw [if_pos ((strLt_pad4 pfx a v ha hv).mpr h), natMax_eq_right (Nat.le_of_lt h)]
  · rw [if_neg (fun hh => h ((strLt_pad4 pfx a v ha hv).mp hh)),
      natMax_eq_left (Nat.le_of_not_lt h)]

lemma scan_foldl (pfx : String) : ∀ (vals : List Nat) (a : Nat), a ≤ 9999 →
    (∀ v ∈ vals, v ≤ 9999) →
    List.foldl scanStep (some (pfx ++ pad4 a)) (vals.map (fun v => pfx ++ pad4 v)) =
      some (pfx ++ pad4 (vals.foldl max a)) := by
  intro vals
  induction vals with
  | nil => intro a _ _; rfl
  | cons v vs ih =>
    intro a ha hv
    have hvv : v ≤ 9999 := hv v (List.mem_cons_self v vs)
    simp only [List.map_cons, List.foldl_cons]
    rw [scanStep_pad4 pfx a v ha hvv]
    exact ih (max a v) (natMax_le_of ha hvv)
      (fun x hx => hv x (List.mem_cons_of_mem v hx))

lemma foldl_max_le : ∀ (vals : List Nat) (a : Nat), a ≤ 9999 → (∀ v ∈ vals, v ≤ 9999) →
    vals.foldl max a ≤ 9999 := by
  intro vals
  induction vals with
  | nil => intro a ha _; exact ha
  | cons v vs ih =>
    intro a ha hv
    have hvv : v ≤ 9999 := hv v (List.mem_cons_self v vs)
    exact ih (max a v) (natMax_le_of ha hvv)
      (fun x hx => hv x (List.mem_cons_of_mem v hx))

lemma maxVal_le (vals : List Nat) (hv : ∀ v ∈ vals, v ≤ 9999) : maxVal vals ≤ 9999 :=
  foldl_max_le vals 0 (by omega) hv

lemma maxVal_append_one (vals : List Nat) (x : Nat) :
    maxVal (vals ++ [x]) = max (maxVal vals) x := by
  unfold maxVal
  rw [List.foldl_append]
  rfl

lemma allocateInvoice_eq (store : List String) (y m : Nat) : allocateInvoice store y m =
    invoicePfx y m ++ padStartStr (numToStr
      (match scanMax store (invoicePfx y m) with
       | none => some 1
       | some inv => (jsParseInt (afterLastDash inv)).map (fun k => k + 1))) 4 zeroChar := rfl

lemma numToStr_succ_nat (v : Nat) : numToStr (some ((v : Int) + 1)) = natToString (v + 1) := by
  show (if ((v : Int) + 1) < 0 then
      String.mk (Char.ofNat 45 :: (natToString ((v : Int) + 1).natAbs).data)
    else natToString ((v : Int) + 1).toNat) = natToString (v + 1)
  rw [if_neg (show ¬ ((v : Int) + 1 < 0) by omega)]
  have : ((v : Int) + 1).toNat = v + 1 := by omega
  rw [this]

lemma scanMax_mapped_nil (pfx : String) (store : List String)
    (hfil : store.filter (fun s => strIsPrefixOf pfx s) = []) : scanMax store pfx = none := by
  unfold scanMax
  rw [hfil]
  rfl

lemma scanMax_mapped_cons (pfx : String) (store : List String) (v : Nat) (vs : List Nat)
    (hfil : store.filter (fun s => strIsPrefixOf pfx s)
      = (v :: vs).map (fun x => pfx ++ pad4 x))
    (hv : ∀ x ∈ v :: vs, x ≤ 9999) :
    scanMax store pfx = some (pfx ++ pad4 (maxVal (v :: vs))) := by
  unfold scanMax
  rw [hfil]
  simp only [List.map_cons, List.foldl_cons]
  have hstep : scanStep none (pfx ++ pad4 v) = some (pfx ++ pad4 v) := rfl
  rw [hstep, scan_foldl pfx vs v (hv v (List.mem_cons_self v vs))
    (fun x hx => hv x (List.mem_cons_of_mem v hx))]
  have : maxVal (v :: vs) = vs.foldl max v := by
    unfold maxVal
    rw [List.foldl_cons, natMax_eq_right (Nat.zero_le v)]
  rw [this]

lemma allocateInvoice_mapped (y m : Nat) (store : List String) (vals : List Nat)
    (hfil : store.filter (fun s => strIsPrefixOf (invoicePfx y m) s)
      = vals.map (fun v => invoicePfx y m ++ pad4 v))
    (hb : ∀ v ∈ vals, v ≤ 9999) :
    allocateInvoice store y m = invoicePfx y m ++ pad4 (maxVal vals + 1) := by
  rw [allocateInvoice_eq]
  match vals, hfil, hb with
  | [], hfil, _ =>
    rw [scanMax_mapped_nil (invoicePfx y m) store (by simpa using hfil)]
    rfl
  | v :: vs, hfil, hb =>
    rw [scanMax_mapped_cons (invoicePfx y m) store v vs hfil hb]
    have hM : maxVal (v :: vs) ≤ 9999 := maxVal_le (v :: vs) hb
    show invoicePfx y m ++ padStartStr (numToStr ((jsParseInt (afterLastDash
      (invoicePfx y m ++ pad4 (maxVal (v :: vs))))).map (fun k => k + 1))) 4 zeroChar = _
    rw [afterLastDash_pfx_pad4 (invoicePfx y m) (invoicePfx_ends_dash y m) (maxVal (v :: vs)),
      jsParseInt_pad4]
    show invoicePfx y m ++ padStartStr (numToStr (some ((maxVal (v :: vs) : Int) + 1)))
      4 zeroChar = _
    rw [numToStr_succ_nat]
    rfl

lemma runAlloc_mapped (y m : Nat) : ∀ (k : Nat) (store : List String) (vals : List Nat),
    (store.filter (fun s => strIsPrefixOf (invoicePfx y m) s)
      = vals.map (fun v => invoicePfx y m ++ pad4 v)) →
    (∀ v ∈ vals, v ≤ 9999) → maxVal vals + k ≤ 9999 →
    runAlloc store y m k
      = (List.range k).map (fun i => invoicePfx y m ++ pad4 (maxVal vals + 1 + i)) := by
  intro k
  induction k with
  | zero => intro store vals _ _ _; rfl
  | succ k ih =>
    intro store vals hfil hb hk
    have halloc := allocateInvoice_mapped y m store vals hfil hb
    show allocateInvoice store y m
        :: runAlloc (store ++ [allocateInvoice store y m]) y m k = _
    rw [halloc]
    have hfil2 : (store ++ [invoicePfx y m ++ pad4 (maxVal vals + 1)]).filter
        (fun s => strIsPrefixOf (invoicePfx y m) s)
        = (vals ++ [maxVal vals + 1]).map (fun v => invoicePfx y m ++ pad4 v) := by
      rw [List.filter_append, hfil, List.map_append]
      have : List.filter (fun s => strIsPrefixOf (invoicePfx y m) s)
          [invoicePfx y m ++ pad4 (maxVal vals + 1)]
          = [invoicePfx y m ++ pad4 (maxVal vals + 1)] :=
        List.filter_cons_of_pos (strIsPrefixOf_append (invoicePfx y m) (pad4 (maxVal vals + 1)))
      rw [this]
      rfl
    have hb2 : ∀ v ∈ vals ++ [maxVal vals + 1], v ≤ 9999 := by
      intro v hv
      rcases List.mem_append.mp hv with h | h
      · exact hb v h
      · have : v = maxVal vals + 1 := List.mem_singleton.mp h
        omega
    have hmax2 : maxVal (vals ++ [maxVal vals + 1]) = maxVal vals + 1 := by
      rw [maxVal_append_one]
      exact natMax_eq_right (Nat.le_succ _)
    have hk2 : maxVal (vals ++ [maxVal vals + 1]) + k ≤ 9999 := by
      rw [hmax2]
      omega
    rw [ih (store ++ [invoicePfx y m ++ pad4 (maxVal vals + 1)]) (vals ++ [maxVal vals + 1])
      hfil2 hb2 hk2, hmax2]
    rw [List.range_succ_eq_map, List.map_cons, List.map_map]
    have hfun : ((fun i => invoicePfx y m ++ pad4 (maxVal vals + 1 + i)) ∘ Nat.succ)
        = (fun i => invoicePfx y m ++ pad4 (maxVal vals + 1 + 1 + i)) := by
      funext i
      show invoicePfx y m ++ pad4 (maxVal vals + 1 + (i + 1)) = _
      rw [show maxVal vals + 1 + (i + 1) = maxVal vals + 1 + 1 + i by omega]
    rw [hfun]

lemma runAlloc_seq_pairwise (y m k : Nat) (store : List String) (vals : List Nat)
    (hfil : store.filter (fun s => strIsPrefixOf (invoicePfx y m) s)
      = vals.map (fun v => invoicePfx y m ++ pad4 v))
    (hb : ∀ v ∈ vals, v ≤ 9999) (hk : maxVal vals + k ≤ 9999) :
    List.Pairwise (fun a b => seqNat a < seqNat b) (runAlloc store y m k) := by
  rw [runAlloc_mapped y m k store vals hfil hb hk, List.pairwise_map]
  refine (List.pairwise_lt_range k).imp ?_
  intro i j hij
  rw [seqNat_pfx_pad4 (invoicePfx y m) (invoicePfx_ends_dash y m),
    seqNat_pfx_pad4 (invoicePfx y m) (invoicePfx_ends_dash y m)]
  omega

/-- C1: Sequence Allocator contract.  When the history scan finds no
identifier in scope, the allocated identifier is the prefix followed by 0001
(for year 2025, month 6 exactly INV/2025/06-VE-0001); otherwise the allocated
sequence is the integer parse of the trailing digits of the found maximal
identifier plus 1, zero-padded to 4 digits (after prior max
INV/2025/06-VE-0014 exactly INV/2025/06-VE-0015); a successor value of 10000
simply widens the field with no overflow error. -/
theorem C1_allocator_contract (y m : Nat) (store : List String) :
    (scanMax store (invoicePfx y m) = none →
      allocateInvoice store y m = invoicePfx y m ++ "0001") ∧
    (∀ inv n, scanMax store (invoicePfx y m) = some inv →
      jsParseInt (afterLastDash inv) = some n →
      allocateInvoice store y m
        = invoicePfx y m ++ padStartStr (numToStr (some (n + 1))) 4 zeroChar) ∧
    allocateInvoice [] 2025 6 = "INV/2025/06-VE-0001" ∧
    allocateInvoice ["INV/2025/06-VE-0014"] 2025 6 = "INV/2025/06-VE-0015" ∧
    allocateInvoice ["INV/2025/06-VE-9999"] 2025 6 = "INV/2025/06-VE-10000" := by
  refine ⟨?_, ?_, by decide, by decide, by decide⟩
  · intro h
    rw [allocateInvoice_eq, h]
    show invoicePfx y m ++ padStartStr (numToStr (some 1)) 4 zeroChar = _
    rw [show padStartStr (numToStr (some 1)) 4 zeroChar = "0001" from by decide]
  · intro inv n h1 h2
    rw [allocateInvoice_eq, h1]
    show invoicePfx y m ++ padStartStr (numToStr
      ((jsParseInt (afterLastDash inv)).map (fun k => k + 1))) 4 zeroChar = _
    rw [h2]
    rfl

/-- C1 witness: the two conditional branches of the contract discharged at
concrete stores. -/
theorem C1_allocator_contract_w :
    (scanMax ["INV/2025/05-VE-0007"] (invoicePfx 2025 6) = none ∧
      allocateInvoice ["INV/2025/05-VE-0007"] 2025 6 = invoicePfx 2025 6 ++ "0001") ∧
    (scanMax ["INV/2025/06-VE-0014"] (invoicePfx 2025 6) = some ("INV/2025/06-VE-0014") ∧
      jsParseInt (afterLastDash ("INV/2025/06-VE-0014")) = some 14 ∧
      allocateInvoice ["INV/2025/06-VE-0014"] 2025 6
        = invoicePfx 2025 6 ++ padStartStr (numToStr (some (14 + 1))) 4 zeroChar) :=
  ⟨⟨by decide, (C1_allocator_contract 2025 6 ["INV/2025/05-VE-0007"]).1 (by decide)⟩,
   ⟨by decide, by decide,
    (C1_allocator_contract 2025 6 ["INV/2025/06-VE-0014"]).2.1 ("INV/2025/06-VE-0014") 14
      (by decide) (by decide)⟩⟩

/-- C2 counterexample: monotonicity as stated fails at the 4-digit boundary.
In a scope already holding 9999 and 10000 (both reachable: 10000 is exactly
what the allocator produces after 9999), the lexicographic scan still finds
9999, so two successive allocations both produce sequence number 10000 -
the second is not strictly greater than the first. -/
theorem C2_counterexample :
    runAlloc ["INV/2025/06-VE-9999", "INV/2025/06-VE-10000"] 2025 6 2
      = ["INV/2025/06-VE-10000", "INV/2025/06-VE-10000"] ∧
    seqNat ("INV/2025/06-VE-10000") = 10000 ∧
    ¬ List.Pairwise (fun a b => seqNat a < seqNat b)
      (runAlloc ["INV/2025/06-VE-9999", "INV/2025/06-VE-10000"] 2025 6 2) :=
  ⟨by decide, by decide, by decide⟩

/-- C2 (amended): monotonicity within scope holds on the precondition the
spec itself records (section 9): every identifier in scope carries an
exactly-4-digit zero-padded suffix and the run stays below the 10000
boundary.  Then every allocation in a run of successive non-concurrent
allocations is strictly greater in sequence number than every earlier one. -/
theorem C2_monotonic_amended (y m k : Nat) (store : List String) (vals : List Nat)
    (hfil : store.filter (fun s => strIsPrefixOf (invoicePfx y m) s)
      = vals.map (fun v => invoicePfx y m ++ pad4 v))
    (hb : ∀ v ∈ vals, v ≤ 9999) (hk : maxVal vals + k ≤ 9999) :
    List.Pairwise (fun a b => seqNat a < seqNat b) (runAlloc store y m k) :=
  runAlloc_seq_pairwise y m k store vals hfil hb hk

/-- C2 witness: a run of two allocations over a store holding sequence 4
in scope (plus an out-of-scope record). -/
theorem C2_monotonic_amended_w :
    ((["INV/2025/06-VE-0004", "XYZ"].filter (fun s => strIsPrefixOf (invoicePfx 2025 6) s)
        = [4].map (fun v => invoicePfx 2025 6 ++ pad4 v)) ∧
      (∀ v ∈ [4], v ≤ 9999) ∧ maxVal [4] + 2 ≤ 9999) ∧
    List.Pairwise (fun a b => seqNat a < seqNat b)
      (runAlloc ["INV/2025/06-VE-0004", "XYZ"] 2025 6 2) :=
  ⟨⟨by decide, by decide, by decide⟩,
    C2_monotonic_amended 2025 6 2 ["INV/2025/06-VE-0004", "XYZ"] [4]
      (by decide) (by decide) (by decide)⟩

/-- C3: scope reset.  For every store state with no identifier carrying the
scope prefix of the requested (year, month), the allocation yields sequence
number 1, i.e. the prefix followed by 0001, regardless of what other scopes
contain. -/
theorem C3_scope_reset (y m : Nat) (store : List String)
    (h : ∀ s ∈ store, strIsPrefixOf (invoicePfx y m) s = false) :
    allocateInvoice store y m = invoicePfx y m ++ "0001" := by
  have hfil : store.filter (fun s => strIsPrefixOf (invoicePfx y m) s) = [] :=
    List.filter_eq_nil_iff.mpr (fun a ha => by simp [h a ha])
  rw [allocateInvoice_eq, scanMax_mapped_nil (invoicePfx y m) store hfil]
  show invoicePfx y m ++ padStartStr (numToStr (some 1)) 4 zeroChar = _
  rw [show padStartStr (numToStr (some 1)) 4 zeroChar = "0001" from by decide]

/-- C3 witness: a store full of other-month and other-year identifiers still
starts the June 2025 scope at 0001. -/
theorem C3_scope_reset_w :
    (∀ s ∈ ["INV/2025/05-VE-0099", "INV/2024/06-VE-0123"],
      strIsPrefixOf (invoicePfx 2025 6) s = false) ∧
    allocateInvoice ["INV/2025/05-VE-0099", "INV/2024/06-VE-0123"] 2025 6
      = invoicePfx 2025 6 ++ "0001" :=
  ⟨by decide, C3_scope_reset 2025 6 ["INV/2025/05-VE-0099", "INV/2024/06-VE-0123"] (by decide)⟩

/-- C4: behaviour at the failing input.  A scope whose maximal record has the
non-numeric suffix XXXX does not crash the allocator, but the malformed
record is not skipped: parseInt yields NaN, which propagates through the
increment and padStart into the allocated identifier INV/2025/06-VE-0NaN,
different from the INV/2025/06-VE-0001 allocated when the record is absent. -/
theorem C4_malformed_not_skipped :
    allocateInvoice ["INV/2025/06-VE-XXXX"] 2025 6 = "INV/2025/06-VE-0NaN" ∧
    jsParseInt (afterLastDash ("INV/2025/06-VE-XXXX")) = none ∧
    allocateInvoice [] 2025 6 = "INV/2025/06-VE-0001" :=
  ⟨by decide, by decide, by decide⟩

/-- C5 counterexample: two concurrent requests in the same scope, both
scanning the empty store before either writes (schedule request 0 scan,
request 1 scan, request 0 write, request 1 write), both allocate
INV/2025/06-VE-0001 - the identifiers are not pairwise distinct. -/
theorem C5_counterexample :
    runSched 2025 6 [0, 1, 0, 1] [] [Phase.start, Phase.start]
      = (["INV/2025/06-VE-0001", "INV/2025/06-VE-0001"],
         [Phase.done ("INV/2025/06-VE-0001"), Phase.done ("INV/2025/06-VE-0001")]) ∧
    ¬ (["INV/2025/06-VE-0001", "INV/2025/06-VE-0001"] : List String).Nodup :=
  ⟨by decide, by decide⟩

/-- C5 (amended): distinctness holds only for serialized execution - when
each request's scan happens after every earlier request's write (the runAlloc
order), and within the 4-digit precondition, the N allocated identifiers are
pairwise distinct.  Overlapping scan-scan schedules can duplicate (see the
counterexample). -/
theorem C5_serial_distinct (y m k : Nat) (store : List String) (vals : List Nat)
    (hfil : store.filter (fun s => strIsPrefixOf (invoicePfx y m) s)
      = vals.map (fun v => invoicePfx y m ++ pad4 v))
    (hb : ∀ v ∈ vals, v ≤ 9999) (hk : maxVal vals + k ≤ 9999) :
    (runAlloc store y m k).Nodup := by
  have hpw := runAlloc_seq_pairwise y m k store vals hfil hb hk
  refine hpw.imp ?_
  intro a b hlt heq
  rw [heq] at hlt
  exact lt_irrefl _ hlt

/-- C5 witness: three serialized allocations from a scope holding sequence 7
yield three distinct identifiers. -/
theorem C5_serial_distinct_w :
    ((["INV/2025/06-VE-0007"].filter (fun s => strIsPrefixOf (invoicePfx 2025 6) s)
        = [7].map (fun v => invoicePfx 2025 6 ++ pad4 v)) ∧
      (∀ v ∈ [7], v ≤ 9999) ∧ maxVal [7] + 3 ≤ 9999) ∧
    (runAlloc ["INV/2025/06-VE-0007"] 2025 6 3).Nodup :=
  ⟨⟨by decide, by decide, by decide⟩,
    C5_serial_distinct 2025 6 3 ["INV/2025/06-VE-0007"] [7] (by decide) (by decide) (by decide)⟩
lemma allocateKwitansi_eq (plists : List (List String)) (y m : Nat) :
    allocateKwitansi plists y m = kwitansiPfx y m ++ padStartStr (numToStr
      (match findLastKwitansiDoc plists (kwitansiPfx y m) with
       | none => some 1
       | some pl =>
         if pl.length > 0 then
           let nums := (pl.filter (fun k => strIsPrefixOf (kwitansiPfx y m) k)).map
             (fun k => jsParseInt (afterLastDash k))
           if nums.length > 0 then (jsMaxList nums).map (fun k => k + 1) else some 1
         else some 1)) 4 zeroChar := rfl

/-- C7: lexicographic order equals numeric order for the allocator's
zero-padded 4-digit suffixes: for positive sequence numbers at most 9999 and
any common prefix p, p ++ pad4 m sorts below p ++ pad4 n exactly when m < n;
consequently the History Scanner's descending sort with limit 1 returns the
numerically maximal identifier of a scope whose suffixes are all 4-digit. -/
theorem C7_lex_eq_numeric (p : String) (m n : Nat)
    (hm1 : 1 ≤ m) (hm : m ≤ 9999) (hn1 : 1 ≤ n) (hn : n ≤ 9999) :
    (strLt (p ++ pad4 m) (p ++ pad4 n) = true ↔ m < n) ∧
    ∀ (y mo : Nat) (vals : List Nat), vals ≠ [] → (∀ v ∈ vals, v ≤ 9999) →
      scanMax (vals.map (fun v => invoicePfx y mo ++ pad4 v)) (invoicePfx y mo)
        = some (invoicePfx y mo ++ pad4 (maxVal vals)) := by
  constructor
  · exact strLt_pad4 p m n hm hn
  · intro y mo vals hne hv
    match vals, hne, hv with
    | v :: vs, _, hv =>
      refine scanMax_mapped_cons (invoicePfx y mo)
        ((v :: vs).map (fun x => invoicePfx y mo ++ pad4 x)) v vs ?_ hv
      apply List.filter_eq_self.mpr
      intro a ha
      obtain ⟨x, hx, rfl⟩ := List.mem_map.mp ha
      exact strIsPrefixOf_append (invoicePfx y mo) (pad4 x)

/-- C7 witness: the equivalence applied at prefix INV/2025/06-VE- with
sequence numbers 3 and 14. -/
theorem C7_lex_eq_numeric_w :
    ((1 : Nat) ≤ 3 ∧ (3 : Nat) ≤ 9999 ∧ (1 : Nat) ≤ 14 ∧ (14 : Nat) ≤ 9999) ∧
    ((strLt (("INV/2025/06-VE-") ++ pad4 3) (("INV/2025/06-VE-") ++ pad4 14) = true ↔ 3 < 14) ∧
      ∀ (y mo : Nat) (vals : List Nat), vals ≠ [] → (∀ v ∈ vals, v ≤ 9999) →
        scanMax (vals.map (fun v => invoicePfx y mo ++ pad4 v)) (invoicePfx y mo)
          = some (invoicePfx y mo ++ pad4 (maxVal vals))) :=
  ⟨⟨by decide, by decide, by decide, by decide⟩,
    C7_lex_eq_numeric ("INV/2025/06-VE-") 3 14 (by decide) (by decide) (by decide) (by decide)⟩

/-- Reservation created with a zero deposit, used as a parent for the payment
endpoint counterexample. -/
def r6base : ReservationRec :=
  createReservation [] [] 2025 6
    { tanggalReservasi := "2025-06-01", tanggalEvent := "2025-06-10",
      pax := "10", hargaPerPax := "100", subTotal := "1000", dp := "0" }

/-- C6 counterexample: the payment-append endpoint persists the
client-supplied receipt identifier verbatim - here the arbitrary string
GARBAGE-99, which is not an allocator output and does not even carry the
NOTA/ tag, becomes the stored nomorKwitansi. -/
theorem C6_counterexample :
    ((addPembayaran r6base ("GARBAGE-99") ("500")).pembayaran.map PaymentRec.nomorKwitansi)
      = [("GARBAGE-99")] ∧
    strIsPrefixOf ("NOTA/") ("GARBAGE-99") = false ∧
    strIsPrefixOf (kwitansiPfx 2025 6) ("GARBAGE-99") = false :=
  ⟨by decide, by decide, by decide⟩

/-- C6 (amended): only the down-payment record auto-created at
reservation-creation time gets its receipt identifier from the Sequence
Allocator under the SDP category and NOTA tag (computed from the year/month
scope and the existing payment history); the payment-append endpoint instead
persists the caller-supplied identifier verbatim. -/
theorem C6_kwitansi_amended (invStore : List String) (payStore : List (List String))
    (y m : Nat) (body : CreateBody) (hdp : 0 < jsOrZero (jsParseFloat body.dp)) :
    ((createReservation invStore payStore y m body).pembayaran.map PaymentRec.nomorKwitansi
      = [allocateKwitansi payStore y m]) ∧
    strIsPrefixOf (kwitansiPfx y m) (allocateKwitansi payStore y m) = true ∧
    (∀ (r : ReservationRec) (c j : String),
      (addPembayaran r c j).pembayaran.map PaymentRec.nomorKwitansi
        = r.pembayaran.map PaymentRec.nomorKwitansi ++ [c]) := by
  refine ⟨?_, ?_, ?_⟩
  · show ((if 0 < jsOrZero (jsParseFloat body.dp) then
        ([{ nomorKwitansi := allocateKwitansi payStore y m,
            jumlah := some (jsOrZero (jsParseFloat body.dp)) }] : List PaymentRec)
      else []).map PaymentRec.nomorKwitansi) = _
    rw [if_pos hdp]
    rfl
  · rw [allocateKwitansi_eq]
    exact strIsPrefixOf_append (kwitansiPfx y m) _
  · intro r c j
    show (r.pembayaran ++ ([{ nomorKwitansi := c, jumlah := jsParseFloat j }]
      : List PaymentRec)).map PaymentRec.nomorKwitansi = _
    rw [List.map_append]
    rfl

/-- Create body with a positive deposit for the C6 witness. -/
def body6w : CreateBody :=
  { tanggalReservasi := "2025-06-01", tanggalEvent := "2025-06-10",
    pax := "10", hargaPerPax := "100", subTotal := "1000", dp := "100" }

/-- C6 witness: a creation with deposit 100 over a payment history holding
NOTA/2025/06-SDP-0003. -/
theorem C6_kwitansi_amended_w :
    (0 < jsOrZero (jsParseFloat body6w.dp)) ∧
    (((createReservation [] [["NOTA/2025/06-SDP-0003"]] 2025 6 body6w).pembayaran.map
        PaymentRec.nomorKwitansi = [allocateKwitansi [["NOTA/2025/06-SDP-0003"]] 2025 6]) ∧
      strIsPrefixOf (kwitansiPfx 2025 6) (allocateKwitansi [["NOTA/2025/06-SDP-0003"]] 2025 6)
        = true ∧
      (∀ (r : ReservationRec) (c j : String),
        (addPembayaran r c j).pembayaran.map PaymentRec.nomorKwitansi
          = r.pembayaran.map PaymentRec.nomorKwitansi ++ [c])) :=
  ⟨by decide, C6_kwitansi_amended [] [["NOTA/2025/06-SDP-0003"]] 2025 6 body6w (by decide)⟩

/-- Store with one reservation whose children live both embedded in the
document and as rows of the separate migrated collections. -/
def db8 : SepDB :=
  { reservations := [{ rid := 1, addons := [100, 101], pembayaran := [200, 201, 202] }]
    addonsCol := [(10, 1), (11, 1)]
    paymentsCol := [(20, 1), (21, 1), (22, 1)] }

/-- C8 counterexample: deleting a reservation succeeds yet the rows of the
separate addons and payments collections (the layout migrate.js produces)
that reference it all remain - a direct query finds 2 orphaned add-on rows
and 3 orphaned payment rows, not zero. -/
theorem C8_counterexample :
    (deleteReservation db8 1).2 = true ∧
    orphanAddons (deleteReservation db8 1).1 1 = [(10, 1), (11, 1)] ∧
    orphanPayments (deleteReservation db8 1).1 1 = [(20, 1), (21, 1), (22, 1)] ∧
    (orphanAddons (deleteReservation db8 1).1 1).length ≠ 0 :=
  ⟨by decide, by decide, by decide, by decide⟩

lemma eraseP_filter_nil (id : Nat) : ∀ (l : List ResDoc), (l.map ResDoc.rid).Nodup →
    (l.eraseP (fun r => r.rid == id)).filter (fun r => r.rid == id) = [] := by
  intro l
  induction l with
  | nil => intro _; rfl
  | cons r t ih =>
    intro hnd
    rw [List.map_cons, List.nodup_cons] at hnd
    by_cases hr : (r.rid == id) = true
    · rw [@List.eraseP_cons_of_pos ResDoc r t (fun r => r.rid == id) hr]
      apply List.filter_eq_nil_iff.mpr
      intro a ha
      have hrid : r.rid = id := beq_iff_eq.mp hr
      simp only [beq_iff_eq]
      intro haid
      exact hnd.1 (by rw [hrid, ← haid]; exact List.mem_map_of_mem ResDoc.rid ha)
    · rw [@List.eraseP_cons_of_neg ResDoc r t (fun r => r.rid == id) hr,
        @List.filter_cons_of_neg ResDoc (fun r => r.rid == id) r (List.eraseP
          (fun r => r.rid == id) t) hr]
      exact ih hnd.2

/-- C8 (amended): for the embedded layout the server actually serves, the
delete is one atomic document operation: on success no embedded add-on or
payment record of the reservation remains reachable, and on failure the
store is unchanged - no partial state either way.  The rows of the separate
addons/payments collections produced by the migration, however, are never
touched by the delete endpoint, so rows referencing the deleted reservation
remain orphaned there. -/
theorem C8_cascade_amended (db : SepDB) (id : Nat)
    (huniq : (db.reservations.map ResDoc.rid).Nodup) :
    ((deleteReservation db id).2 = true →
      embeddedAddons (deleteReservation db id).1 id = [] ∧
      embeddedPayments (deleteReservation db id).1 id = []) ∧
    ((deleteReservation db id).2 = false → (deleteReservation db id).1 = db) ∧
    (deleteReservation db id).1.addonsCol = db.addonsCol ∧
    (deleteReservation db id).1.paymentsCol = db.paymentsCol := by
  unfold deleteReservation
  by_cases h : (db.reservations.any (fun r => r.rid == id)) = true
  · rw [if_pos h]
    refine ⟨fun _ => ⟨?_, ?_⟩, fun hc => by simp at hc, rfl, rfl⟩
    · unfold embeddedAddons
      rw [show ({ db with reservations := db.reservations.eraseP (fun r => r.rid == id) }
          : SepDB).reservations = db.reservations.eraseP (fun r => r.rid == id) from rfl]
      rw [eraseP_filter_nil id db.reservations huniq]
      rfl
    · unfold embeddedPayments
      rw [show ({ db with reservations := db.reservations.eraseP (fun r => r.rid == id) }
          : SepDB).reservations = db.reservations.eraseP (fun r => r.rid == id) from rfl]
      rw [eraseP_filter_nil id db.reservations huniq]
      rfl
  · rw [if_neg h]
    exact ⟨fun hc => absurd hc (by simp), fun _ => rfl, rfl, rfl⟩

/-- Store for the C8 witness: two reservations with distinct ids. -/
def db8b : SepDB :=
  { reservations := [{ rid := 1, addons := [100], pembayaran := [200] },
                     { rid := 2, addons := [], pembayaran := [] }]
    addonsCol := [(10, 1)]
    paymentsCol := [] }

/-- C8 witness: deleting reservation 1 leaves no embedded children of it
reachable while the separate collections are untouched. -/
theorem C8_cascade_amended_w :
    ((db8b.reservations.map ResDoc.rid).Nodup ∧ (deleteReservation db8b 1).2 = true) ∧
    ((embeddedAddons (deleteReservation db8b 1).1 1 = [] ∧
        embeddedPayments (deleteReservation db8b 1).1 1 = []) ∧
      (deleteReservation db8b 1).1.addonsCol = db8b.addonsCol) :=
  ⟨⟨by decide, by decide⟩,
    ⟨(C8_cascade_amended db8b 1 (by decide)).1 (by decide),
     (C8_cascade_amended db8b 1 (by decide)).2.2.1⟩⟩

/-- Document with no fields, standing for an empty request body. -/
def emptyDoc : Doc := fun _ => none

/-- A fixed request timestamp for the update model. -/
def now0 : JVal := JVal.vdate (some ("2025-06-15"))

/-- Create body whose pax field is not numeric. -/
def body9x : CreateBody :=
  { tanggalReservasi := "2025-06-01", tanggalEvent := "2025-06-10",
    pax := "abc", hargaPerPax := "100", subTotal := "1000", dp := "50" }

/-- C9 counterexample: malformed numeric input does not coerce to zero.  A
create request with pax "abc" stores pax NaN (not 0), and an update request
without a dp field writes dp NaN (not 0); the requests do not fail. -/
theorem C9_counterexample :
    (createReservation [] [] 2025 6 body9x).pax = none ∧
    (none : Option Int) ≠ some 0 ∧
    putUpdateData emptyDoc now0 ("dp") = some (JVal.vnum none) ∧
    JVal.vnum none ≠ JVal.vnum (some 0) :=
  ⟨by decide, by decide, by decide, by decide⟩

/-- C9 (amended): pax, hargaPerPax and subTotal are coerced with
parseInt/parseFloat and malformed input coerces to NaN, not zero, on both
create and update; dp coerces malformed input to zero only on create (the
|| 0 fallback) and to NaN on update; in every case the request succeeds and
the coerced value is stored. -/
theorem C9_coercion_amended (invStore : List String) (payStore : List (List String))
    (y m : Nat) (body : CreateBody) (ubody : Doc) (now : JVal) :
    ((createReservation invStore payStore y m body).pax = jsParseInt body.pax) ∧
    (jsParseInt body.pax = none → (createReservation invStore payStore y m body).pax = none) ∧
    ((createReservation invStore payStore y m body).hargaPerPax
      = jsParseFloat body.hargaPerPax) ∧
    ((createReservation invStore payStore y m body).subTotal = jsParseFloat body.subTotal) ∧
    ((createReservation invStore payStore y m body).dp = jsOrZero (jsParseFloat body.dp)) ∧
    (jsParseFloat body.dp = none → (createReservation invStore payStore y m body).dp = 0) ∧
    (putUpdateData ubody now ("pax")
      = some (JVal.vnum ((jsParseIntJ (ubody ("pax"))).map (fun i => (i : ℚ))))) ∧
    (jsParseIntJ (ubody ("pax")) = none →
      putUpdateData ubody now ("pax") = some (JVal.vnum none)) ∧
    (jsParseFloatJ (ubody ("dp")) = none →
      putUpdateData ubody now ("dp") = some (JVal.vnum none)) := by
  refine ⟨rfl, ?_, rfl, rfl, rfl, ?_, rfl, ?_, ?_⟩
  · intro h
    show jsParseInt body.pax = none
    exact h
  · intro h
    show jsOrZero (jsParseFloat body.dp) = 0
    rw [h]
    rfl
  · intro h
    have he : putUpdateData ubody now ("pax")
        = some (JVal.vnum ((jsParseIntJ (ubody ("pax"))).map (fun i => (i : ℚ)))) := rfl
    rw [he, h]
    rfl
  · intro h
    have he : putUpdateData ubody now ("dp")
        = some (JVal.vnum (jsParseFloatJ (ubody ("dp")))) := rfl
    rw [he, h]

/-- Create body for the C9 witness: pax and dp both malformed. -/
def body9w : CreateBody :=
  { tanggalReservasi := "2025-06-01", tanggalEvent := "2025-06-10",
    pax := "abc", hargaPerPax := "100", subTotal := "1000", dp := "oops" }

/-- C9 witness: the conditional coercion facts discharged at a body with
malformed pax and dp and an empty update body. -/
theorem C9_coercion_amended_w :
    (jsParseInt body9w.pax = none ∧ jsParseFloat body9w.dp = none ∧
      jsParseIntJ (emptyDoc ("pax")) = none ∧ jsParseFloatJ (emptyDoc ("dp")) = none) ∧
    ((createReservation [] [] 2025 6 body9w).pax = none ∧
      (createReservation [] [] 2025 6 body9w).dp = 0 ∧
      putUpdateData emptyDoc now0 ("pax") = some (JVal.vnum none) ∧
      putUpdateData emptyDoc now0 ("dp") = some (JVal.vnum none)) :=
  ⟨⟨by decide, by decide, by decide, by decide⟩,
   ⟨(C9_coercion_amended [] [] 2025 6 body9w emptyDoc now0).2.1 (by decide),
    (C9_coercion_amended [] [] 2025 6 body9w emptyDoc now0).2.2.2.2.2.1 (by decide),
    (C9_coercion_amended [] [] 2025 6 body9w emptyDoc now0).2.2.2.2.2.2.2.1 (by decide),
    (C9_coercion_amended [] [] 2025 6 body9w emptyDoc now0).2.2.2.2.2.2.2.2 (by decide)⟩⟩

/-- Stored reservation document for the C10 counterexample. -/
def old0 : Doc := fun k =>
  if k = "_id" then some (JVal.vstr ("id-1"))
  else if k = "nomorInvoice" then some (JVal.vstr ("INV/2025/06-VE-0001"))
  else if k = "pax" then some (JVal.vnum (some 5))
  else none

/-- C10 counterexample: an update whose body supplies no fields still writes
pax (to NaN), so the written fields are not only the supplied fields plus
updatedAt - the stored pax changes from 5 to NaN although the body never
mentioned pax. -/
theorem C10_counterexample :
    emptyDoc ("pax") = none ∧
    updateReservation old0 emptyDoc now0 ("pax") = some (JVal.vnum none) ∧
    old0 ("pax") = some (JVal.vnum (some 5)) ∧
    updateReservation old0 emptyDoc now0 ("pax") ≠ old0 ("pax") :=
  ⟨by decide, by decide, by decide, by decide⟩

/-- C10 (amended): the PUT handler strips _id and nomorInvoice, so those
stored fields never change even when the body supplies them; updatedAt is
stamped; every key outside the always-written list passes through (written
exactly when supplied, otherwise unchanged); and the six coerced fields plus
updatedAt are written on every request, even when the body omits them. -/
theorem C10_update_frame_amended (old body : Doc) (now : JVal) :
    updateReservation old body now ("_id") = old ("_id") ∧
    updateReservation old body now ("nomorInvoice") = old ("nomorInvoice") ∧
    updateReservation old body now ("updatedAt") = some now ∧
    (∀ k, k ∉ putAlwaysKeys → k ≠ "_id" → k ≠ "nomorInvoice" → body k = none →
      updateReservation old body now k = old k) ∧
    (∀ k v, k ∉ putAlwaysKeys → k ≠ "_id" → k ≠ "nomorInvoice" → body k = some v →
      updateReservation old body now k = some v) ∧
    (∀ k, k ∈ putAlwaysKeys → ∃ v, putUpdateData body now k = some v) := by
  refine ⟨rfl, rfl, rfl, ?_, ?_, ?_⟩
  · intro k h1 h2 h3 h4
    simp only [putAlwaysKeys, List.mem_cons, List.not_mem_nil, or_false, not_or] at h1
    obtain ⟨h1a, h1b, h1c, h1d, h1e, h1f, h1g⟩ := h1
    have hu : putUpdateData body now k = body k := by
      unfold putUpdateData
      rw [if_neg h2, if_neg h3, if_neg h1a, if_neg h1b, if_neg h1c, if_neg h1d, if_neg h1e,
        if_neg h1f, if_neg h1g]
    show applySet old (putUpdateData body now) k = old k
    unfold applySet
    rw [hu, h4]
  · intro k v h1 h2 h3 h4
    simp only [putAlwaysKeys, List.mem_cons, List.not_mem_nil, or_false, not_or] at h1
    obtain ⟨h1a, h1b, h1c, h1d, h1e, h1f, h1g⟩ := h1
    have hu : putUpdateData body now k = body k := by
      unfold putUpdateData
      rw [if_neg h2, if_neg h3, if_neg h1a, if_neg h1b, if_neg h1c, if_neg h1d, if_neg h1e,
        if_neg h1f, if_neg h1g]
    show applySet old (putUpdateData body now) k = some v
    unfold applySet
    rw [hu, h4]
  · intro k hk
    simp only [putAlwaysKeys, List.mem_cons, List.not_mem_nil, or_false] at hk
    rcases hk with rfl | rfl | rfl | rfl | rfl | rfl | rfl
    · exact ⟨_, rfl⟩
    · exact ⟨_, rfl⟩
    · exact ⟨_, rfl⟩
    · exact ⟨_, rfl⟩
    · exact ⟨_, rfl⟩
    · exact ⟨_, rfl⟩
    · exact ⟨_, rfl⟩

/-- C10 witness: the pass-through frame fact discharged at the key venue
with an empty body, and the preserved identifier fields at a concrete store
document. -/
theorem C10_update_frame_amended_w :
    ((("venue" : String) ∉ putAlwaysKeys ∧ ("venue" : String) ≠ "_id" ∧
        ("venue" : String) ≠ "nomorInvoice" ∧ emptyDoc ("venue") = none)) ∧
    updateReservation old0 emptyDoc now0 ("venue") = old0 ("venue") :=
  ⟨⟨by decide, by decide, by decide, by decide⟩,
   (C10_update_frame_amended old0 emptyDoc now0).2.2.2.1 ("venue") (by decide) (by decide)
     (by decide) (by decide)⟩
